import Mathlib

/-!
Verification development for the NotesApp backend (`Backend/server.py`).

The server is a Flask application managing per-`(user_id, session_id)` chat
sessions: pickled session-metadata files under `sessions/`, a FAISS index per
session under `vectorstore/`, and a process-wide in-memory map
`conversation_chains` caching the retrieval pipeline per session key.

The embedding below models the filesystem as association lists keyed by the
exact path strings the code computes, and each route as a pure state
transformer.  External collaborators (text extraction, the embedding and
completion providers, generated UUIDs, wall-clock timestamps) enter as
function or data inputs; ISO-8601 timestamp strings are modelled by `Nat`
clock values (ISO string comparison agrees with time order).
-/

set_option autoImplicit false

namespace NotesApp

/-! ### Python string primitives

Re-implementations of the Python `str` operations the server uses
(`replace`, `strip`, `lower`, `startswith`, `endswith`, `rsplit(".", 1)`),
written with structural recursion so concrete instances reduce in the kernel.
-/

/-- `str.replace(pat, rep)`: replace non-overlapping occurrences left to
right.  `fuel` bounds recursion; callers pass the string length, which
suffices for nonempty patterns. -/
def replaceAux (pat rep : List Char) : Nat → List Char → List Char
  | _, [] => []
  | 0, l => l
  | fuel + 1, c :: rest =>
    if pat.isPrefixOf (c :: rest) then
      rep ++ replaceAux pat rep fuel ((c :: rest).drop pat.length)
    else
      c :: replaceAux pat rep fuel rest

/-- Python `s.replace(pat, rep)` on Lean strings. -/
def pyReplace (s pat rep : String) : String :=
  ⟨replaceAux pat.data rep.data s.data.length s.data⟩

/-- The whitespace characters removed by Python `str.strip()`. -/
def isPySpace (c : Char) : Bool :=
  c == ' ' || c == '\t' || c == '\n' || c == '\r' || c == '\x0b' || c == '\x0c'

/-- Python `s.strip()`. -/
def pyStrip (s : String) : String :=
  ⟨((s.data.dropWhile isPySpace).reverse.dropWhile isPySpace).reverse⟩

/-- ASCII lowercasing of one character, as Python `str.lower` does for the
ASCII range used in filename extensions. -/
def pyLowerChar (c : Char) : Char :=
  if 'A' ≤ c ∧ c ≤ 'Z' then Char.ofNat (c.toNat + 32) else c

/-- Python `s.lower()` (ASCII fragment). -/
def pyLower (s : String) : String :=
  ⟨s.data.map pyLowerChar⟩

/-- Python `s.startswith(p)`. -/
def pyStartsWith (s p : String) : Bool :=
  p.data.isPrefixOf s.data

/-- Python `s.endsWith(p)`. -/
def pyEndsWith (s p : String) : Bool :=
  p.data.isSuffixOf s.data

/-- `filename.rsplit(".", 1)[1]`: the substring after the last dot
(meaningful only when a dot is present, as the callers guard). -/
def extAfterLastDot (s : String) : String :=
  ⟨(s.data.reverse.takeWhile (fun c => c ≠ '.')).reverse⟩

/-! ### Text chunker

`get_text_chunks` in the source delegates to langchain's
`CharacterTextSplitter(separator="\n", chunk_size=1000, chunk_overlap=200,
length_function=len)`, a third-party library whose code is not part of this
repository.  Modelled from the spec (§4.1 Text Chunker): chunks of target
length 1000 with a fixed overlap of 200 between consecutive chunks, the
final chunk may be shorter, and no trailing content is dropped.  The
separator-preferred split points are not modelled (the coverage property
C9 is stated "modulo the separator-preferred split points"), so the model
uses the spec's hard length cuts: consecutive chunk starts advance by
`stride = 1000 - 200 = 800` characters. -/
def chunkCharsAux (size stride : Nat) : Nat → List Char → List (List Char)
  | _, [] => []
  | 0, l => [l]
  | fuel + 1, l =>
    if l.length ≤ size then [l]
    else l.take size :: chunkCharsAux size stride fuel (l.drop stride)

/-- Modelled from the spec: split text into chunks for the vector store,
target length 1000 characters, overlap 200 (see `chunkCharsAux`). -/
def get_text_chunks (text : String) : List String :=
  (chunkCharsAux 1000 800 text.data.length text.data).map String.mk

/-- Concatenate chunks with the fixed overlap removed: the first chunk is
kept whole and every later chunk contributes everything after its first
`overlap` characters. -/
def joinWithoutOverlap (overlap : Nat) : List (List Char) → List Char
  | [] => []
  | c :: rest => c ++ (rest.map (List.drop overlap)).flatten

/-! ### Data model -/

/-- One entry of a session's document manifest (`doc_info` in `upload_documents`). -/
structure DocInfo where
  filename : String
  saved_as : String
  type : String
  uploaded_at : Nat
deriving Repr, DecidableEq

/-- One transcript entry appended by `chat`. -/
structure ChatEntry where
  question : String
  answer : String
  timestamp : Nat
deriving Repr, DecidableEq

/-- The session-metadata dictionary created by `create_session` and mutated
by the other routes.  `message_count` and `chat_history` are read with
`dict.get` defaults in the source, so they are modelled as `Option` fields
(`none` = key absent). -/
structure SessionMetadata where
  session_id : String
  user_id : String
  session_name : String
  created_at : Nat
  updated_at : Nat
  message_count : Option Nat
  documents : List DocInfo
  chat_history : Option (List ChatEntry)
deriving Repr, DecidableEq

/-- The persisted FAISS vector store of a session, modelled as the list of
chunk texts it holds, in insertion order (`add_texts` appends). -/
abbrev VStore := List String

/-- A pickled session file on disk: either it unpickles to a metadata
record or `pickle.load` raises on it. -/
inductive Blob where
  | good : SessionMetadata → Blob
  | corrupt : Blob
deriving Repr, DecidableEq

/-! ### Association-list helpers (filesystem directories and in-memory maps) -/

/-- Look up a key in an association list. -/
def lookupA {α : Type} : List (String × α) → String → Option α
  | [], _ => none
  | (k', v) :: rest, k => if k' = k then some v else lookupA rest k

/-- Write a key (overwriting an existing binding, else appending). -/
def storeA {α : Type} : List (String × α) → String → α → List (String × α)
  | [], k, v => [(k, v)]
  | (k', v') :: rest, k, v =>
    if k' = k then (k, v) :: rest else (k', v') :: storeA rest k v

/-- Delete a key. -/
def removeA {α : Type} : List (String × α) → String → List (String × α)
  | [], _ => []
  | (k', v') :: rest, k =>
    if k' = k then removeA rest k else (k', v') :: removeA rest k

/-! ### Server state and path helpers -/

/-- The mutable state the routes touch: the `sessions/` directory, the
`vectorstore/` directory, and the process-wide `conversation_chains` map.
A cached conversation chain is modelled by the vector-store contents the
retriever was bound to when the chain was built. -/
structure ServerState where
  sessionFiles : List (String × Blob)
  vsFiles : List (String × VStore)
  conversation_chains : List (String × VStore)
deriving Repr, DecidableEq

/-- `get_session_key`: unique key for a user-session combination. -/
def get_session_key (user_id session_id : String) : String :=
  user_id ++ "_" ++ session_id

/-- `get_session_path`: file path for session metadata. -/
def get_session_path (user_id session_id : String) : String :=
  "sessions/" ++ user_id ++ "_" ++ session_id ++ "_session.pkl"

/-- `get_vectorstore_path`: file path for the session vector store. -/
def get_vectorstore_path (user_id session_id : String) : String :=
  "vectorstore/" ++ user_id ++ "_" ++ session_id ++ "_vectorstore.pkl"

/-- Unpickling a session file: absent file is `None`, a corrupt file makes
`pickle.load` raise (modelled as `Except.error`). -/
def decodeBlob : Option Blob → Except String (Option SessionMetadata)
  | some (Blob.good m) => .ok (some m)
  | some Blob.corrupt => .error "UnpicklingError"
  | none => .ok none

/-- `load_session_metadata`. -/
def load_session_metadata (st : ServerState) (user_id session_id : String) :
    Except String (Option SessionMetadata) :=
  decodeBlob (lookupA st.sessionFiles (get_session_path user_id session_id))

/-- `save_session_metadata`. -/
def save_session_metadata (st : ServerState) (user_id session_id : String)
    (metadata : SessionMetadata) : ServerState :=
  { st with sessionFiles :=
      storeA st.sessionFiles (get_session_path user_id session_id) (Blob.good metadata) }

/-- `load_vectorstore`: note the source strips the `.pkl` extension before
calling `FAISS.load_local`, so the index lives at the path without `.pkl`. -/
def load_vectorstore (st : ServerState) (user_id session_id : String) : Option VStore :=
  lookupA st.vsFiles (pyReplace (get_vectorstore_path user_id session_id) ".pkl" "")

/-- `save_vectorstore`: the source strips the `.pkl` extension before
`save_local`, so the index is persisted at the path without `.pkl`. -/
def save_vectorstore (st : ServerState) (user_id session_id : String) (v : VStore) :
    ServerState :=
  { st with vsFiles :=
      storeA st.vsFiles (pyReplace (get_vectorstore_path user_id session_id) ".pkl" "") v }

/-! ### Session listing (`get_user_sessions`) -/

/-- The filenames `os.listdir(app.config["SESSIONS_PATH"])` yields, i.e. the
stored paths with the `sessions/` directory removed. -/
def sessionFilenames (st : ServerState) : List String :=
  st.sessionFiles.map (fun p => ⟨p.1.data.drop "sessions/".length⟩)

/-- Stable insertion used to model Python's stable
`sessions.sort(key=lambda x: x.get("updated_at", ""), reverse=True)`. -/
def insertDescBy (m : SessionMetadata) : List SessionMetadata → List SessionMetadata
  | [] => [m]
  | x :: rest =>
    if x.updated_at ≤ m.updated_at then m :: x :: rest else x :: insertDescBy m rest

/-- Sort session records by `updated_at` descending (stable). -/
def sortSessionsDesc : List SessionMetadata → List SessionMetadata
  | [] => []
  | x :: rest => insertDescBy x (sortSessionsDesc rest)

/-- The loop body of `get_user_sessions`: filter filenames by the
`f"{user_id}_"` and `"_session.pkl"` affixes, recover the session id with the
two `str.replace` calls, and unpickle each record.  An unpickling exception
propagates and aborts the whole traversal, exactly as in the source. -/
def collectSessions (st : ServerState) (user_id : String) :
    List String → Except String (List SessionMetadata)
  | [] => .ok []
  | filename :: rest =>
    if pyStartsWith filename (user_id ++ "_") && pyEndsWith filename "_session.pkl" then
      let session_id := pyReplace (pyReplace filename (user_id ++ "_") "") "_session.pkl" ""
      match load_session_metadata st user_id session_id with
      | .error e => .error e
      | .ok (some m) =>
        match collectSessions st user_id rest with
        | .error e => .error e
        | .ok tail => .ok (m :: tail)
      | .ok none => collectSessions st user_id rest
    else
      collectSessions st user_id rest

/-- `get_user_sessions`: all sessions for a user, newest-updated first.  An
`Except.error` models the `pickle.load` exception escaping to the route
handler, which turns it into an HTTP 500 for the whole listing. -/
def get_user_sessions (st : ServerState) (user_id : String) :
    Except String (List SessionMetadata) :=
  match collectSessions st user_id (sessionFilenames st) with
  | .error e => .error e
  | .ok sessions => .ok (sortSessionsDesc sessions)

/-! ### Ingestion and the pipeline cache -/

/-- `update_vectorstore`: chunk the text, append to the loaded store if one
exists (FAISS `add_texts` appends, preserving prior entries) or build a new
one, then persist. -/
def update_vectorstore (st : ServerState) (user_id session_id : String) (text : String) :
    ServerState :=
  let text_chunks := get_text_chunks text
  match load_vectorstore st user_id session_id with
  | some existing_vectorstore =>
      save_vectorstore st user_id session_id (existing_vectorstore ++ text_chunks)
  | none => save_vectorstore st user_id session_id text_chunks

/-- `get_conversation_chain`: return the cached chain for the session key if
present; otherwise load the vector store (absent → `None`), build a chain
bound to it, cache and return it.  The chain is modelled by the store
contents its retriever was bound to. -/
def get_conversation_chain (st : ServerState) (user_id session_id : String) :
    ServerState × Option VStore :=
  match lookupA st.conversation_chains (get_session_key user_id session_id) with
  | some chain => (st, some chain)
  | none =>
    match load_vectorstore st user_id session_id with
    | none => (st, none)
    | some vectorstore =>
      ({ st with conversation_chains :=
            storeA st.conversation_chains (get_session_key user_id session_id) vectorstore },
       some vectorstore)

/-! ### Routes -/

/-- `POST /sessions/create`.  The generated `uuid.uuid4()` and
`datetime.now()` are inputs.  Returns the new state, the HTTP status and
the created record. -/
def create_session (st : ServerState) (user_id session_name session_id : String)
    (now : Nat) : ServerState × Nat × Option SessionMetadata :=
  if user_id = "" then (st, 400, none)
  else
    let session_metadata : SessionMetadata :=
      { session_id := session_id
        user_id := user_id
        session_name := session_name
        created_at := now
        updated_at := now
        message_count := some 0
        documents := []
        chat_history := none }
    (save_session_metadata st user_id session_id session_metadata, 201,
     some session_metadata)

/-- `PUT /sessions/<user_id>/<session_id>` (rename).  Status 200/404, or 500
when unpickling the record raises. -/
def update_session (st : ServerState) (user_id session_id : String)
    (session_name : Option String) (now : Nat) : ServerState × Nat :=
  match load_session_metadata st user_id session_id with
  | .error _ => (st, 500)
  | .ok none => (st, 404)
  | .ok (some metadata) =>
    let metadata1 :=
      match session_name with
      | some n => { metadata with session_name := n }
      | none => metadata
    (save_session_metadata st user_id session_id { metadata1 with updated_at := now }, 200)

/-- `DELETE /sessions/<user_id>/<session_id>`: remove the metadata file if it
exists, remove the vector store **at the unstripped `.pkl` path** if a file
exists there (the source checks `get_vectorstore_path`, which still carries
the `.pkl` suffix that `save_vectorstore` stripped), and evict the cached
chain.  Always 200. -/
def delete_session (st : ServerState) (user_id session_id : String) : ServerState × Nat :=
  let session_path := get_session_path user_id session_id
  let st1 :=
    if (lookupA st.sessionFiles session_path).isSome then
      { st with sessionFiles := removeA st.sessionFiles session_path }
    else st
  let vectorstore_path := get_vectorstore_path user_id session_id
  let st2 :=
    if (lookupA st1.vsFiles vectorstore_path).isSome then
      { st1 with vsFiles := removeA st1.vsFiles vectorstore_path }
    else st1
  let st3 :=
    { st2 with conversation_chains :=
        removeA st2.conversation_chains (get_session_key user_id session_id) }
  (st3, 200)

/-- One file of a multipart upload request.  `extracted_text` is what
`extract_text_from_file` returns for the saved file (PDF/DOCX parsing is an
external collaborator returning `""` on failure); `uuid` is the
`uuid.uuid4()` drawn for the stored filename. -/
structure UploadFile where
  filename : String
  uuid : String
  extracted_text : String
deriving Repr, DecidableEq

/-- `allowed_file`: a dot is present and the extension after the last dot
lowercases to `pdf` or `docx`. -/
def allowed_file (filename : String) : Bool :=
  filename.data.contains '.' &&
    (pyLower (extAfterLastDot filename) == "pdf" ||
     pyLower (extAfterLastDot filename) == "docx")

/-- The upload loop: for each allowed file build its manifest entry and
append `text + "\n\n"` to the combined text, in request order. -/
def processFiles (user_id session_id : String) (now : Nat) :
    List UploadFile → List DocInfo × String
  | [] => ([], "")
  | f :: rest =>
    if allowed_file f.filename then
      let file_type := pyLower (extAfterLastDot f.filename)
      let doc : DocInfo :=
        { filename := f.filename
          saved_as := user_id ++ "_" ++ session_id ++ "_" ++ f.uuid
          type := file_type
          uploaded_at := now }
      let (docs, text) := processFiles user_id session_id now rest
      (doc :: docs, f.extracted_text ++ "\n\n" ++ text)
    else
      processFiles user_id session_id now rest

/-- Outcome of `POST /upload`. -/
inductive UploadResult where
  | badRequest (error : String)
  | notFound
  | serverError (error : String)
  | success (files : List DocInfo)
deriving Repr, DecidableEq

/-- `POST /upload`: validate, load the session record, run the file loop,
and if the combined text is nonempty after stripping, update the vector
store, refresh `updated_at` and persist the metadata with the appended
manifest entries; otherwise report 400 with nothing persisted. -/
def upload_documents (st : ServerState) (user_id session_id : String)
    (files : List UploadFile) (now : Nat) : ServerState × UploadResult :=
  if user_id = "" ∨ session_id = "" then
    (st, .badRequest "user_id and session_id are required")
  else if files = [] then (st, .badRequest "No files selected")
  else
    match load_session_metadata st user_id session_id with
    | .error e => (st, .serverError e)
    | .ok none => (st, .notFound)
    | .ok (some metadata) =>
      let pf := processFiles user_id session_id now files
      let metadata1 := { metadata with documents := metadata.documents ++ pf.1 }
      if pyStrip pf.2 ≠ "" then
        let st1 := update_vectorstore st user_id session_id pf.2
        (save_session_metadata st1 user_id session_id { metadata1 with updated_at := now },
         .success pf.1)
      else
        (st, .badRequest "No text could be extracted from files")

/-- Outcome of `POST /chat`.  A `success` records the pipeline (the store
contents the answering chain retrieved from) together with the answer. -/
inductive ChatResult where
  | badRequest (error : String)
  | serverError (error : String)
  | success (pipeline : VStore) (answer : String)
deriving Repr, DecidableEq

/-- `POST /chat`: validate, get or build the conversation chain, obtain the
answer from the external completion provider (`complete`, a function of the
pipeline's context and the question), then — only if the session record
loads to a value — append the transcript entry, bump `message_count`,
refresh `updated_at` and persist. -/
def chat (st : ServerState) (user_id session_id question : String)
    (complete : VStore → String → String) (now : Nat) : ServerState × ChatResult :=
  if user_id = "" ∨ session_id = "" then
    (st, .badRequest "user_id and session_id are required")
  else if question = "" then (st, .badRequest "No question provided")
  else
    match get_conversation_chain st user_id session_id with
    | (st1, none) =>
      (st1, .badRequest "No documents uploaded yet. Please upload documents first.")
    | (st1, some chain) =>
      let answer := complete chain question
      match load_session_metadata st1 user_id session_id with
      | .error e => (st1, .serverError e)
      | .ok none => (st1, .success chain answer)
      | .ok (some metadata) =>
        (save_session_metadata st1 user_id session_id
          { metadata with
              message_count := some (metadata.message_count.getD 0 + 1)
              updated_at := now
              chat_history :=
                some (metadata.chat_history.getD [] ++ [⟨question, answer, now⟩]) },
         .success chain answer)

/-! ### Sequences of mutating operations on one session -/

/-- A mutating request targeting a fixed `(user_id, session_id)`: a rename
(`PUT`), a document upload, or a chat turn (with its completion provider). -/
inductive SessionOp where
  | rename (session_name : Option String)
  | upload (files : List UploadFile)
  | chatTurn (question : String) (complete : VStore → String → String)

/-- Apply one operation at clock value `now`, keeping only the state. -/
def applyOp (st : ServerState) (user_id session_id : String) (now : Nat) :
    SessionOp → ServerState
  | .rename n => (update_session st user_id session_id n now).1
  | .upload files => (upload_documents st user_id session_id files now).1
  | .chatTurn q f => (chat st user_id session_id q f now).1

/-- Run a list of timed operations left to right. -/
def runOps (st : ServerState) (user_id session_id : String) :
    List (Nat × SessionOp) → ServerState
  | [] => st
  | (t, op) :: rest => runOps (applyOp st user_id session_id t op) user_id session_id rest

/-- The session's stored `updated_at`, when its record is on disk and
decodable. -/
def obsUpdated (st : ServerState) (user_id session_id : String) : Option Nat :=
  match load_session_metadata st user_id session_id with
  | .ok (some m) => some m.updated_at
  | _ => none

/-- The `updated_at` value observed after each operation of a run. -/
def updatedTrace (st : ServerState) (user_id session_id : String) :
    List (Nat × SessionOp) → List (Option Nat)
  | [] => []
  | (t, op) :: rest =>
    let st1 := applyOp st user_id session_id t op
    obsUpdated st1 user_id session_id :: updatedTrace st1 user_id session_id rest

/-! ### Two concurrent ingestions on one session

`upload_documents` runs `update_vectorstore` with no lock of any kind: the
source has no per-session mutex, so under Flask's threaded request handling
two uploads to the same session may interleave their
load-(append)-persist phases on the shared persisted index.  The model
below makes those two phases explicit atomic steps and runs two ingestion
threads under an arbitrary schedule. -/

/-- Where one ingestion thread stands: not yet started, holding the store
contents it loaded, or finished. -/
inductive IngestPhase where
  | ready
  | loaded (v : Option VStore)
  | done
deriving Repr, DecidableEq

/-- One atomic step of an ingestion thread adding `chunks`: `ready` performs
the load (`load_vectorstore`), `loaded` appends its chunks to what it loaded
and persists (`add_texts`/`from_texts` followed by `save_vectorstore`). -/
def ingestStep (store : Option VStore) (chunks : VStore) :
    IngestPhase → Option VStore × IngestPhase
  | .ready => (store, .loaded store)
  | .loaded v => (some (v.getD [] ++ chunks), .done)
  | .done => (store, .done)

/-- The shared persisted index plus the two threads' phases. -/
structure IngestRace where
  store : Option VStore
  t1 : IngestPhase
  t2 : IngestPhase
deriving Repr, DecidableEq

/-- Let the scheduled thread (`true` = thread 1) take one step. -/
def raceStep (c1 c2 : VStore) (cfg : IngestRace) (pick : Bool) : IngestRace :=
  if pick then
    let r := ingestStep cfg.store c1 cfg.t1
    { cfg with store := r.1, t1 := r.2 }
  else
    let r := ingestStep cfg.store c2 cfg.t2
    { cfg with store := r.1, t2 := r.2 }

/-- Run a schedule of thread picks. -/
def runRace (c1 c2 : VStore) (cfg : IngestRace) : List Bool → IngestRace
  | [] => cfg
  | b :: rest => runRace c1 c2 (raceStep c1 c2 cfg b) rest

/-! ### Concrete scenarios used by counterexamples and witnesses -/

/-- Fresh server: empty `sessions/` and `vectorstore/` directories, empty
chain cache. -/
def st0 : ServerState := ⟨[], [], []⟩

/-- A session created at clock 0. -/
def stCreated : ServerState := (create_session st0 "u" "N" "s" 0).1

/-- The record `create_session st0 "u" "N" "s" 0` persists. -/
def mCreated : SessionMetadata :=
  { session_id := "s", user_id := "u", session_name := "N", created_at := 0
    updated_at := 0, message_count := some 0, documents := [], chat_history := none }

def stC1a : ServerState := (create_session st0 "alice" "Biology" "sid" 0).1

def stC1b : ServerState :=
  (upload_documents stC1a "alice" "sid" [⟨"a.pdf", "u1", "alpha"⟩] 1).1

/-- The record persisted for `("alice", "sid")` in `stC1b`. -/
def mC1b : SessionMetadata :=
  { session_id := "sid", user_id := "alice", session_name := "Biology", created_at := 0
    updated_at := 1, message_count := some 0
    documents := [⟨"a.pdf", "alice_sid_u1", "pdf", 1⟩], chat_history := none }

def stC1c : ServerState := (chat stC1b "alice" "sid" "q1" (fun _ _ => "ans1") 2).1

def stC1d : ServerState :=
  (upload_documents stC1c "alice" "sid" [⟨"b.pdf", "u2", "beta"⟩] 3).1

/-- A session with one uploaded document ("hello" extracted at clock 1). -/
def stC2 : ServerState :=
  (upload_documents (create_session st0 "u" "New Chat" "s" 0).1 "u" "s"
    [⟨"a.pdf", "u1", "hello"⟩] 1).1

/-- A state whose vector store exists while the session-metadata file is
absent (exactly what `delete_session` leaves behind, see C2). -/
def stC3 : ServerState := ⟨[], [("vectorstore/u_s_vectorstore", ["doc"])], []⟩

def mC4 : SessionMetadata :=
  { session_id := "b_c", user_id := "a", session_name := "X", created_at := 0
    updated_at := 0, message_count := some 0, documents := [], chat_history := none }

def mC6 : SessionMetadata :=
  { session_id := "s1", user_id := "u", session_name := "A", created_at := 0
    updated_at := 5, message_count := some 0, documents := [], chat_history := none }

/-- Two session files of user `u`: one decodable, one corrupt. -/
def stC6 : ServerState :=
  ⟨[("sessions/u_s1_session.pkl", Blob.good mC6),
    ("sessions/u_s2_session.pkl", Blob.corrupt)], [], []⟩

/-- The same user with only decodable session files. -/
def stC6ok : ServerState := ⟨[("sessions/u_s1_session.pkl", Blob.good mC6)], [], []⟩

/-- An upload whose only file extracts to pure whitespace. -/
def filesC7 : List UploadFile := [⟨"a.pdf", "u1", " \n "⟩]

def opsW8 : List (Nat × SessionOp) :=
  [(1, .rename (some "R")),
   (2, .upload [⟨"a.pdf", "u1", "text"⟩]),
   (3, .chatTurn "q" (fun _ _ => "a"))]

def opsW10 : List (Nat × SessionOp) :=
  [(1, .upload [⟨"a.pdf", "u1", "text"⟩]),
   (2, .chatTurn "q" (fun _ _ => "a"))]

def stW10 : ServerState := runOps stCreated "u" "s" opsW10

/-- The record persisted for `("u", "s")` in `stW10`. -/
def mW10 : SessionMetadata :=
  { session_id := "s", user_id := "u", session_name := "N", created_at := 0
    updated_at := 2, message_count := some 1
    documents := [⟨"a.pdf", "u_s_u1", "pdf", 1⟩]
    chat_history := some [⟨"q", "a", 2⟩] }

/-! ## Supporting lemmas -/

theorem lookupA_storeA_self {α : Type} (l : List (String × α)) (k : String) (v : α) :
    lookupA (storeA l k v) k = some v := by
  induction l with
  | nil => simp [storeA, lookupA]
  | cons p rest ih =>
    obtain ⟨k', v'⟩ := p
    by_cases h : k' = k
    · simp [storeA, h, lookupA]
    · simp [storeA, h, lookupA, ih]

theorem lookupA_mem {α : Type} {l : List (String × α)} {k : String} {v : α}
    (h : lookupA l k = some v) : (k, v) ∈ l := by
  induction l with
  | nil => simp [lookupA] at h
  | cons p rest ih =>
    obtain ⟨k', v'⟩ := p
    by_cases hk : k' = k
    · subst hk
      simp [lookupA] at h
      subst h
      exact List.mem_cons_self _ _
    · simp only [lookupA, if_neg hk] at h
      exact List.mem_cons_of_mem _ (ih h)

theorem load_save_self (st : ServerState) (u s : String) (m : SessionMetadata) :
    load_session_metadata (save_session_metadata st u s m) u s = .ok (some m) := by
  simp [load_session_metadata, save_session_metadata, lookupA_storeA_self, decodeBlob]

theorem sessionFiles_update_vectorstore (st : ServerState) (u s text : String) :
    (update_vectorstore st u s text).sessionFiles = st.sessionFiles := by
  unfold update_vectorstore
  cases load_vectorstore st u s <;> rfl

theorem chains_update_vectorstore (st : ServerState) (u s text : String) :
    (update_vectorstore st u s text).conversation_chains = st.conversation_chains := by
  unfold update_vectorstore
  cases load_vectorstore st u s <;> rfl

theorem sessionFiles_gcc (st : ServerState) (u s : String) :
    ((get_conversation_chain st u s).1).sessionFiles = st.sessionFiles := by
  unfold get_conversation_chain
  cases lookupA st.conversation_chains (get_session_key u s) with
  | some c => rfl
  | none => cases load_vectorstore st u s <;> rfl

theorem load_congr {st st' : ServerState} (h : st.sessionFiles = st'.sessionFiles)
    (u s : String) : load_session_metadata st u s = load_session_metadata st' u s := by
  simp [load_session_metadata, h]

theorem load_vectorstore_save (st : ServerState) (u s : String) (v : VStore) :
    load_vectorstore (save_vectorstore st u s v) u s = some v := by
  simp [load_vectorstore, save_vectorstore, lookupA_storeA_self]

/-- The net effect of one (un-interleaved) `update_vectorstore`: the
persisted index afterwards is what was loaded (empty if absent) plus the
new chunks.  This is the load-append-persist sequence the race model
`ingestStep` splits into its two shared-state phases. -/
theorem update_vectorstore_spec (st : ServerState) (u s text : String) :
    load_vectorstore (update_vectorstore st u s text) u s =
      some ((load_vectorstore st u s).getD [] ++ get_text_chunks text) := by
  unfold update_vectorstore
  cases h : load_vectorstore st u s <;> simp [h, load_vectorstore_save]

/-! ## C1: pipeline-cache invalidation on upload -/

/-- C1 (counterexample): create a session, upload "alpha", chat once (the
pipeline over the "alpha" chunk is cached), upload "beta" successfully, then
chat again.  The second chat is served from the cached pre-upload pipeline
`["alpha\n\n"]` even though the persisted index now also holds
`"beta\n\n"` — the cache entry was not invalidated by the upload, so the
newly uploaded chunks are not retrievable through it, contradicting the
claim. -/
theorem C1_counterexample :
    (chat stC1d "alice" "sid" "q2" (fun _ _ => "ans2") 4).2 =
      ChatResult.success ["alpha\n\n"] "ans2" ∧
    load_vectorstore stC1d "alice" "sid" = some ["alpha\n\n", "beta\n\n"] ∧
    "beta\n\n" ∉ (["alpha\n\n"] : List String) :=
  ⟨rfl, rfl, by decide⟩

/-- C1 (amended): a successful upload leaves the pipeline-cache map
untouched (no invalidation; only session deletion evicts entries), so a
chat that follows an upload reuses any pipeline cached before the upload;
only when no entry is cached for the session does the chat bind a pipeline
to the freshly persisted index. -/
theorem C1_amended :
    (∀ (st : ServerState) (u s : String) (files : List UploadFile) (now : Nat),
        ((upload_documents st u s files now).1).conversation_chains =
          st.conversation_chains) ∧
    (∀ (st : ServerState) (u s q : String) (f : VStore → String → String) (now : Nat)
        (v : VStore), u ≠ "" → s ≠ "" → q ≠ "" →
        lookupA st.conversation_chains (get_session_key u s) = none →
        load_vectorstore st u s = some v →
        lookupA st.sessionFiles (get_session_path u s) ≠ some Blob.corrupt →
        (chat st u s q f now).2 = ChatResult.success v (f v q)) := by
  constructor
  · intro st u s files now
    simp only [upload_documents]
    split
    · rfl
    · split
      · rfl
      · split
        · rfl
        · rfl
        · split
          · simp [save_session_metadata, chains_update_vectorstore]
          · rfl
  · intro st u s q f now v hu hs hq hlk hvs hnc
    have h1 : ¬(u = "" ∨ s = "") := by simp [hu, hs]
    have hpair : get_conversation_chain st u s =
        ({ st with conversation_chains :=
              storeA st.conversation_chains (get_session_key u s) v }, some v) := by
      simp [get_conversation_chain, hlk, hvs]
    simp only [chat, if_neg h1, if_neg hq, hpair]
    cases hblob : lookupA st.sessionFiles (get_session_path u s) with
    | none => simp [load_session_metadata, hblob, decodeBlob]
    | some b =>
      cases b with
      | good m => simp [load_session_metadata, hblob, decodeBlob]
      | corrupt => exact absurd hblob hnc

/-- C1 (witness for the amended theorem): both parts instantiated on the
concrete scenario. -/
theorem C1_amended_witness :
    ((upload_documents stC1c "alice" "sid" [⟨"b.pdf", "u2", "beta"⟩] 3).1).conversation_chains =
      stC1c.conversation_chains ∧
    (chat stC1b "alice" "sid" "q1" (fun _ _ => "ans1") 2).2 =
      ChatResult.success ["alpha\n\n"] "ans1" :=
  ⟨C1_amended.1 stC1c "alice" "sid" [⟨"b.pdf", "u2", "beta"⟩] 3,
   C1_amended.2 stC1b "alice" "sid" "q1" (fun _ _ => "ans1") 2 ["alpha\n\n"]
     (by decide) (by decide) (by decide) (by decide) (by decide) (by decide)⟩

/-! ## C2: session deletion and the persisted index -/

/-- C2 (the code at the failing input): after one successful upload,
`delete_session` returns 200 and removes the metadata record, but the
persisted index survives: `save_vectorstore` stripped `.pkl` from the path
before persisting while `delete_session` tests existence at the unstripped
`.pkl` path, so nothing is removed and `load_vectorstore` still finds the
index — before and after a second (equally "successful") delete. -/
theorem C2_delete_leaves_residual_index :
    (delete_session stC2 "u" "s").2 = 200 ∧
    load_session_metadata (delete_session stC2 "u" "s").1 "u" "s" = .ok none ∧
    load_vectorstore (delete_session stC2 "u" "s").1 "u" "s" = some ["hello\n\n"] ∧
    (delete_session (delete_session stC2 "u" "s").1 "u" "s").2 = 200 ∧
    load_vectorstore (delete_session (delete_session stC2 "u" "s").1 "u" "s").1 "u" "s" =
      some ["hello\n\n"] :=
  ⟨rfl, rfl, rfl, rfl, rfl⟩

/-! ## C3: transcript append on successful chat -/

/-- C3 (counterexample): a state whose vector store exists while the
session-metadata file is absent (exactly what `delete_session` leaves
behind).  `chat` succeeds — it returns an answer — yet no transcript entry
is recorded anywhere: the `sessions/` directory stays empty, so the append
was skipped on a success, contradicting the claim. -/
theorem C3_counterexample :
    (chat stC3 "u" "s" "q" (fun _ _ => "a") 7).2 = ChatResult.success ["doc"] "a" ∧
    ((chat stC3 "u" "s" "q" (fun _ _ => "a") 7).1).sessionFiles = [] :=
  ⟨rfl, rfl⟩

/-- C3 (amended): when the session-metadata record loads successfully at
answer time, a successful chat appends exactly one
`{question, answer, timestamp}` entry, increments the message count and
persists the record; when the record is absent the answer is still returned
but nothing is persisted. -/
theorem C3_amended (st : ServerState) (u s q : String) (f : VStore → String → String)
    (now : Nat) (m : SessionMetadata) (chain : VStore)
    (hu : u ≠ "") (hs : s ≠ "") (hq : q ≠ "")
    (hm : load_session_metadata st u s = .ok (some m))
    (hc : (get_conversation_chain st u s).2 = some chain) :
    (chat st u s q f now).2 = ChatResult.success chain (f chain q) ∧
    load_session_metadata (chat st u s q f now).1 u s =
      .ok (some { m with
        message_count := some (m.message_count.getD 0 + 1)
        updated_at := now
        chat_history := some (m.chat_history.getD [] ++ [⟨q, f chain q, now⟩]) }) := by
  have h1 : ¬(u = "" ∨ s = "") := by simp [hu, hs]
  rcases hgcc : get_conversation_chain st u s with ⟨st1, oc⟩
  have hoc : oc = some chain := by rw [hgcc] at hc; exact hc
  subst hoc
  have hfiles : st1.sessionFiles = st.sessionFiles := by
    have h2 := sessionFiles_gcc st u s
    rw [hgcc] at h2
    exact h2
  have hst1 : load_session_metadata st1 u s = .ok (some m) := by
    rw [load_congr hfiles u s, hm]
  simp only [chat, if_neg h1, if_neg hq, hgcc, hst1]
  exact ⟨trivial, load_save_self _ u s _⟩

/-- C3 (witness for the amended theorem). -/
theorem C3_amended_witness :
    load_session_metadata stC1b "alice" "sid" = .ok (some mC1b) ∧
    (chat stC1b "alice" "sid" "q1" (fun _ _ => "ans1") 2).2 =
      ChatResult.success ["alpha\n\n"] "ans1" ∧
    load_session_metadata (chat stC1b "alice" "sid" "q1" (fun _ _ => "ans1") 2).1
        "alice" "sid" =
      .ok (some { mC1b with
        message_count := some 1
        updated_at := 2
        chat_history := some [⟨"q1", "ans1", 2⟩] }) := by
  have h := C3_amended stC1b "alice" "sid" "q1" (fun _ _ => "ans1") 2 mC1b ["alpha\n\n"]
    (by decide) (by decide) (by decide) rfl rfl
  exact ⟨rfl, h.1, h.2⟩

/-! ## C4: key derivation and user-boundary isolation -/

theorem append_underscore_inj {a b c d : List Char}
    (hb : '_' ∉ b) (hd : '_' ∉ d) (h : a ++ '_' :: b = c ++ '_' :: d) :
    a = c ∧ b = d := by
  induction a generalizing c with
  | nil =>
    cases c with
    | nil => simpa using h
    | cons y ys =>
      simp only [List.nil_append, List.cons_append, List.cons.injEq] at h
      obtain ⟨h1, h2⟩ := h
      exact absurd (h2 ▸ List.mem_append_right ys (List.mem_cons_self '_' d)) hb
  | cons x xs ih =>
    cases c with
    | nil =>
      simp only [List.nil_append, List.cons_append, List.cons.injEq] at h
      obtain ⟨h1, h2⟩ := h
      exact absurd (h2 ▸ List.mem_append_right xs (List.mem_cons_self '_' b)) (h1 ▸ hd)
    | cons y ys =>
      simp only [List.cons_append, List.cons.injEq] at h
      obtain ⟨h1, h2⟩ := h
      obtain ⟨hac, hbd⟩ := ih h2
      exact ⟨by rw [h1, hac], hbd⟩

theorem data_get_session_key (u s : String) :
    (get_session_key u s).data = u.data ++ '_' :: s.data := by
  simp [get_session_key, String.data_append, show ("_" : String).data = ['_'] from rfl]

/-- Distinct pairs whose session ids are underscore-free derive distinct
session keys. -/
theorem get_session_key_inj {u1 s1 u2 s2 : String}
    (h1 : '_' ∉ s1.data) (h2 : '_' ∉ s2.data)
    (h : get_session_key u1 s1 = get_session_key u2 s2) : u1 = u2 ∧ s1 = s2 := by
  have hd := congrArg String.data h
  rw [data_get_session_key, data_get_session_key] at hd
  obtain ⟨hu, hs⟩ := append_underscore_inj h1 h2 hd
  exact ⟨String.ext hu, String.ext hs⟩

theorem data_get_session_path (u s : String) :
    (get_session_path u s).data =
      "sessions/".data ++ ((get_session_key u s).data ++ "_session.pkl".data) := by
  simp [get_session_path, data_get_session_key, String.data_append,
    show ("_" : String).data = ['_'] from rfl]

theorem data_get_vectorstore_path (u s : String) :
    (get_vectorstore_path u s).data =
      "vectorstore/".data ++ ((get_session_key u s).data ++ "_vectorstore.pkl".data) := by
  simp [get_vectorstore_path, data_get_session_key, String.data_append,
    show ("_" : String).data = ['_'] from rfl]

theorem get_session_path_inj {u1 s1 u2 s2 : String}
    (h : get_session_path u1 s1 = get_session_path u2 s2) :
    get_session_key u1 s1 = get_session_key u2 s2 := by
  have hd := congrArg String.data h
  rw [data_get_session_path, data_get_session_path] at hd
  have hd1 := List.append_cancel_left hd
  exact String.ext (List.append_cancel_right hd1)

theorem get_vectorstore_path_inj {u1 s1 u2 s2 : String}
    (h : get_vectorstore_path u1 s1 = get_vectorstore_path u2 s2) :
    get_session_key u1 s1 = get_session_key u2 s2 := by
  have hd := congrArg String.data h
  rw [data_get_vectorstore_path, data_get_vectorstore_path] at hd
  have hd1 := List.append_cancel_left hd
  exact String.ext (List.append_cancel_right hd1)

/-- C4 (counterexample): the pairs `("a", "b_c")` and `("a_b", "c")` are
distinct yet derive the same session key, the same metadata path and the
same index path — metadata saved for user `a` is readable through a request
carrying user id `a_b`, so the claimed key distinctness (and with it strict
user-boundary isolation) fails for arbitrary ids. -/
theorem C4_counterexample :
    (("a", "b_c") : String × String) ≠ ("a_b", "c") ∧
    get_session_key "a" "b_c" = get_session_key "a_b" "c" ∧
    get_session_path "a" "b_c" = get_session_path "a_b" "c" ∧
    get_vectorstore_path "a" "b_c" = get_vectorstore_path "a_b" "c" ∧
    load_session_metadata (save_session_metadata st0 "a" "b_c" mC4) "a_b" "c" =
      .ok (some mC4) :=
  ⟨by decide, rfl, rfl, rfl, rfl⟩

/-- C4 (amended): for distinct `(user_id, session_id)` pairs whose session
ids contain no underscore — as holds for the UUID session ids the server
generates — the derived session key (which also keys the pipeline cache),
the metadata path and the index path are all distinct. -/
theorem C4_amended (u1 s1 u2 s2 : String)
    (h1 : '_' ∉ s1.data) (h2 : '_' ∉ s2.data) (hne : (u1, s1) ≠ (u2, s2)) :
    get_session_key u1 s1 ≠ get_session_key u2 s2 ∧
    get_session_path u1 s1 ≠ get_session_path u2 s2 ∧
    get_vectorstore_path u1 s1 ≠ get_vectorstore_path u2 s2 := by
  have hkey : get_session_key u1 s1 ≠ get_session_key u2 s2 := by
    intro h
    obtain ⟨hu, hs⟩ := get_session_key_inj h1 h2 h
    exact hne (by rw [hu, hs])
  exact ⟨hkey, fun h => hkey (get_session_path_inj h),
    fun h => hkey (get_vectorstore_path_inj h)⟩

/-- C4 (witness for the amended theorem). -/
theorem C4_amended_witness :
    get_session_key "alice" "s1" ≠ get_session_key "bob" "s2" ∧
    get_session_path "alice" "s1" ≠ get_session_path "bob" "s2" ∧
    get_vectorstore_path "alice" "s1" ≠ get_vectorstore_path "bob" "s2" :=
  C4_amended "alice" "s1" "bob" "s2" (by decide) (by decide) (by decide)

/-! ## C5: concurrent ingestion on one session -/

/-- C5 (counterexample): the code takes no per-session lock, so the two
phases of `update_vectorstore` (load, then append-and-persist; see
`update_vectorstore_spec` and `ingestStep`) can interleave.  Under the
schedule load₁, load₂, persist₁, persist₂ both ingestions run to
completion, yet the final persisted index holds only the second upload's
chunk: the first upload's chunk `"A"` is lost, contradicting the claimed
mutual exclusion and no-lost-update guarantee. -/
theorem C5_counterexample :
    runRace ["A"] ["B"] ⟨none, .ready, .ready⟩ [true, false, true, false] =
      ⟨some ["B"], .done, .done⟩ ∧
    "A" ∉ ((runRace ["A"] ["B"] ⟨none, .ready, .ready⟩
      [true, false, true, false]).store.getD []) :=
  ⟨rfl, by decide⟩

/-- C5 (amended): ingestion is an unsynchronized load-append-persist with
no per-session lock.  When the two uploads are serialized the final index
contains both uploads' chunks, but under the interleaving
load₁, load₂, persist₁, persist₂ the first upload's chunks are lost — for
every pair of uploads and every initial store. -/
theorem C5_amended :
    (∀ (c1 c2 : VStore) (s0 : Option VStore),
        (runRace c1 c2 ⟨s0, .ready, .ready⟩ [true, true, false, false]).store =
          some ((s0.getD [] ++ c1) ++ c2)) ∧
    (∀ (c1 c2 : VStore) (s0 : Option VStore),
        (runRace c1 c2 ⟨s0, .ready, .ready⟩ [true, false, true, false]).store =
          some (s0.getD [] ++ c2)) :=
  ⟨fun _ _ _ => rfl, fun _ _ _ => rfl⟩

/-! ## C6: listing resilience to per-record decode failures -/

/-- C6 (counterexample): user `u` has two session files, one decodable and
one corrupt.  The decodable record loads fine on its own, yet the listing
as a whole fails with the unpickling error (the route answers 500), so the
per-record failure aborted the listing of the remaining record,
contradicting the claim. -/
theorem C6_counterexample :
    load_session_metadata stC6 "u" "s1" = .ok (some mC6) ∧
    get_user_sessions stC6 "u" = .error "UnpicklingError" :=
  ⟨rfl, rfl⟩

/-- C6 (amended): a decode failure on any session file read during the
listing aborts the whole listing with an error; the listing succeeds when
every stored session file deserializes. -/
theorem C6_amended (st : ServerState) (u : String)
    (h : ∀ pb ∈ st.sessionFiles, pb.2 ≠ Blob.corrupt) :
    ∃ l, get_user_sessions st u = .ok l := by
  have hc : ∀ fns, ∃ l, collectSessions st u fns = .ok l := by
    intro fns
    induction fns with
    | nil => exact ⟨[], rfl⟩
    | cons f rest ih =>
      obtain ⟨l, hl⟩ := ih
      by_cases hf : (pyStartsWith f (u ++ "_") && pyEndsWith f "_session.pkl") = true
      · cases hload : load_session_metadata st u
            (pyReplace (pyReplace f (u ++ "_") "") "_session.pkl" "") with
        | error e =>
          exfalso
          rw [load_session_metadata] at hload
          cases hlk : lookupA st.sessionFiles (get_session_path u
              (pyReplace (pyReplace f (u ++ "_") "") "_session.pkl" "")) with
          | none => rw [hlk] at hload; simp [decodeBlob] at hload
          | some b =>
            cases b with
            | good m => rw [hlk] at hload; simp [decodeBlob] at hload
            | corrupt => exact h _ (lookupA_mem hlk) rfl
        | ok om =>
          cases om with
          | none => exact ⟨l, by simp [collectSessions, hf, hload, hl]⟩
          | some m => exact ⟨m :: l, by simp [collectSessions, hf, hload, hl]⟩
      · exact ⟨l, by simp [collectSessions, hf, hl]⟩
  obtain ⟨l, hl⟩ := hc (sessionFilenames st)
  exact ⟨sortSessionsDesc l, by simp [get_user_sessions, hl]⟩

/-- C6 (witness for the amended theorem): with only decodable files the
listing succeeds. -/
theorem C6_amended_witness :
    (∀ pb ∈ stC6ok.sessionFiles, pb.2 ≠ Blob.corrupt) ∧
    ∃ l, get_user_sessions stC6ok "u" = .ok l :=
  ⟨by decide, C6_amended stC6ok "u" (by decide)⟩

/-! ## C7: empty extracted text -/

/-- C7: when the combined extracted text of an upload strips to the empty
string, the request answers 400 ("No text could be extracted from files")
and the server state — persisted index, persisted session metadata and the
cache alike — is returned exactly unchanged. -/
theorem C7_empty_text_no_mutation (st : ServerState) (u s : String)
    (files : List UploadFile) (now : Nat) (m : SessionMetadata)
    (hu : u ≠ "") (hs : s ≠ "") (hfiles : files ≠ [])
    (hm : load_session_metadata st u s = .ok (some m))
    (hempty : pyStrip (processFiles u s now files).2 = "") :
    upload_documents st u s files now =
      (st, .badRequest "No text could be extracted from files") := by
  have h1 : ¬(u = "" ∨ s = "") := by simp [hu, hs]
  simp [upload_documents, h1, hfiles, hm, hempty]

/-- C7 (witness): a session at clock 0 receives an upload whose single file
extracts to whitespace only; the request 400s and the state is unchanged. -/
theorem C7_witness :
    load_session_metadata stCreated "u" "s" = .ok (some mCreated) ∧
    pyStrip (processFiles "u" "s" 3 filesC7).2 = "" ∧
    upload_documents stCreated "u" "s" filesC7 3 =
      (stCreated, .badRequest "No text could be extracted from files") :=
  ⟨rfl, rfl, C7_empty_text_no_mutation stCreated "u" "s" filesC7 3 mCreated
    (by decide) (by decide) (by decide) rfl rfl⟩

/-! ## C9: chunk coverage -/

theorem chunkCharsAux_map_drop (size stride : Nat) (h1 : 1 ≤ stride) (h2 : stride ≤ size) :
    ∀ (fuel : Nat) (l : List Char), l.length ≤ fuel →
      ((chunkCharsAux size stride fuel l).map (List.drop (size - stride))).flatten =
        l.drop (size - stride) := by
  intro fuel
  induction fuel with
  | zero =>
    intro l hl
    have hnil : l = [] := List.eq_nil_of_length_eq_zero (Nat.le_zero.mp hl)
    subst hnil
    simp [chunkCharsAux]
  | succ fuel ih =>
    intro l hl
    cases l with
    | nil => simp [chunkCharsAux]
    | cons c rest =>
      simp only [List.length_cons] at hl
      by_cases hs : rest.length + 1 ≤ size
      · simp [chunkCharsAux, hs]
      · have hlen : ((c :: rest).drop stride).length ≤ fuel := by
          rw [List.length_drop]
          simp only [List.length_cons]
          omega
        have ihr := ih ((c :: rest).drop stride) hlen
        simp only [chunkCharsAux, List.length_cons, if_neg hs, List.map_cons,
          List.flatten_cons, ihr]
        rw [List.drop_drop, List.drop_take]
        have h3 : size - (size - stride) = stride := by omega
        have h4 : stride + (size - stride) = (size - stride) + stride := Nat.add_comm _ _
        rw [h3, h4, ← List.drop_drop]
        exact List.take_append_drop stride (List.drop (size - stride) (c :: rest))

theorem chunkCharsAux_reconstruct (size stride : Nat) (h1 : 1 ≤ stride)
    (h2 : stride ≤ size) (fuel : Nat) (l : List Char) (hl : l.length ≤ fuel) :
    joinWithoutOverlap (size - stride) (chunkCharsAux size stride fuel l) = l := by
  cases fuel with
  | zero =>
    have hnil : l = [] := List.eq_nil_of_length_eq_zero (Nat.le_zero.mp hl)
    subst hnil
    rfl
  | succ fuel =>
    cases l with
    | nil => simp [chunkCharsAux, joinWithoutOverlap]
    | cons c rest =>
      simp only [List.length_cons] at hl
      by_cases hs : rest.length + 1 ≤ size
      · simp [chunkCharsAux, hs, joinWithoutOverlap]
      · have hlen : ((c :: rest).drop stride).length ≤ fuel := by
          rw [List.length_drop]
          simp only [List.length_cons]
          omega
        have hmd := chunkCharsAux_map_drop size stride h1 h2 fuel
          ((c :: rest).drop stride) hlen
        simp only [chunkCharsAux, List.length_cons, if_neg hs, joinWithoutOverlap, hmd]
        rw [List.drop_drop]
        have h4 : stride + (size - stride) = size := by omega
        rw [h4]
        exact List.take_append_drop size (c :: rest)

theorem map_data_map_mk (ls : List (List Char)) :
    (ls.map String.mk).map String.data = ls := by
  induction ls with
  | nil => rfl
  | cons a rest ih =>
    simp only [List.map_cons, ih]

theorem chunkCharsAux_ne_nil (size stride fuel : Nat) (l : List Char) (h : l ≠ []) :
    chunkCharsAux size stride fuel l ≠ [] := by
  cases fuel with
  | zero =>
    cases l with
    | nil => exact absurd rfl h
    | cons c rest => simp [chunkCharsAux]
  | succ fuel =>
    cases l with
    | nil => exact absurd rfl h
    | cons c rest =>
      by_cases hs : rest.length + 1 ≤ size <;> simp [chunkCharsAux, hs]

/-- C9: for every input text, the chunker (modelled from the spec, see
`get_text_chunks`) yields a finite ordered chunk sequence whose
concatenation with the fixed 200-character overlap removed reconstructs the
original text losslessly, and a nonempty text always yields at least one
chunk — trailing content shorter than the 1000-character target is kept as
a (possibly shorter) final chunk rather than dropped. -/
theorem C9_chunk_coverage (text : String) :
    joinWithoutOverlap 200 ((get_text_chunks text).map String.data) = text.data ∧
    (text ≠ "" → get_text_chunks text ≠ []) := by
  constructor
  · have h := chunkCharsAux_reconstruct 1000 800 (by omega) (by omega)
      text.data.length text.data (le_refl _)
    rw [get_text_chunks, map_data_map_mk]
    exact h
  · intro h
    intro hmap
    have hd : text.data ≠ [] := by
      intro hnil
      exact h (String.ext (by rw [hnil]))
    exact chunkCharsAux_ne_nil 1000 800 text.data.length text.data hd
      (by simpa [get_text_chunks] using hmap)

/-- C9 (witness). -/
theorem C9_witness :
    ("hello" : String) ≠ "" ∧ get_text_chunks "hello" ≠ [] :=
  ⟨by decide, (C9_chunk_coverage "hello").2 (by decide)⟩

/-! ## C8: `updated_at` freshness and monotonicity -/

theorem obs_save (st : ServerState) (u s : String) (m : SessionMetadata) :
    obsUpdated (save_session_metadata st u s m) u s = some m.updated_at := by
  simp [obsUpdated, load_save_self]

theorem obs_congr {st st' : ServerState} (h : st.sessionFiles = st'.sessionFiles)
    (u s : String) : obsUpdated st u s = obsUpdated st' u s := by
  unfold obsUpdated
  rw [load_congr h u s]

/-- Every operation either leaves the stored `updated_at` untouched (all
failure paths, and a chat that answers without a loadable record) or sets
it to the operation's clock value (all successful mutations). -/
theorem obs_applyOp (st : ServerState) (u s : String) (t : Nat) (op : SessionOp) :
    obsUpdated (applyOp st u s t op) u s = obsUpdated st u s ∨
    obsUpdated (applyOp st u s t op) u s = some t := by
  cases op with
  | rename name =>
    cases hl : load_session_metadata st u s with
    | error e => left; simp [applyOp, update_session, hl]
    | ok om =>
      cases om with
      | none => left; simp [applyOp, update_session, hl]
      | some m => right; simp [applyOp, update_session, hl, obs_save]
  | upload files =>
    by_cases h1 : u = "" ∨ s = ""
    · left; simp [applyOp, upload_documents, h1]
    · by_cases h2 : files = []
      · left; simp [applyOp, upload_documents, h1, h2]
      · cases hl : load_session_metadata st u s with
        | error e => left; simp [applyOp, upload_documents, h1, h2, hl]
        | ok om =>
          cases om with
          | none => left; simp [applyOp, upload_documents, h1, h2, hl]
          | some m =>
            by_cases h3 : pyStrip (processFiles u s t files).2 ≠ ""
            · right
              simp only [applyOp, upload_documents, if_neg h1, if_neg h2, hl, if_pos h3]
              rw [obs_save]
            · left
              simp [applyOp, upload_documents, h1, h2, hl, h3]
  | chatTurn q f =>
    by_cases h1 : u = "" ∨ s = ""
    · left; simp [applyOp, chat, h1]
    · by_cases h2 : q = ""
      · left; simp [applyOp, chat, h1, h2]
      · rcases hgcc : get_conversation_chain st u s with ⟨st1, oc⟩
        have hfiles : st1.sessionFiles = st.sessionFiles := by
          have hx := sessionFiles_gcc st u s
          rw [hgcc] at hx
          exact hx
        have hobs1 : obsUpdated st1 u s = obsUpdated st u s := obs_congr hfiles u s
        cases oc with
        | none => left; simp [applyOp, chat, h1, h2, hgcc, hobs1]
        | some chain =>
          cases hl : load_session_metadata st1 u s with
          | error e => left; simp [applyOp, chat, h1, h2, hgcc, hl, hobs1]
          | ok om =>
            cases om with
            | none => left; simp [applyOp, chat, h1, h2, hgcc, hl, hobs1]
            | some m =>
              right
              simp only [applyOp, chat, if_neg h1, if_neg h2, hgcc, hl]
              rw [obs_save]

theorem chain_le_of_le {v t : Nat} {ts : List Nat} (hvt : v ≤ t)
    (h : List.Chain' (· ≤ ·) (t :: ts)) : List.Chain' (· ≤ ·) (v :: ts) := by
  cases ts with
  | nil => simp
  | cons t' ts' =>
    rw [List.chain'_cons] at h ⊢
    exact ⟨le_trans hvt h.1, h.2⟩

/-- Monotonicity of the observed `updated_at` trace under a non-decreasing
clock. -/
theorem updatedTrace_chain (u s : String) :
    ∀ (ops : List (Nat × SessionOp)) (st : ServerState) (v : Nat),
      obsUpdated st u s = some v →
      List.Chain' (· ≤ ·) (v :: ops.map Prod.fst) →
      List.Chain' (fun a b : Option Nat => ∀ x y, a = some x → b = some y → x ≤ y)
        (some v :: updatedTrace st u s ops) := by
  intro ops
  induction ops with
  | nil =>
    intro st v hv hc
    simp [updatedTrace]
  | cons p rest ih =>
    obtain ⟨t, op⟩ := p
    intro st v hv hc
    simp only [List.map_cons] at hc
    rw [List.chain'_cons] at hc
    obtain ⟨hvt, hc'⟩ := hc
    have hstep := obs_applyOp st u s t op
    simp only [updatedTrace]
    rw [List.chain'_cons]
    cases hstep with
    | inl hsame =>
      rw [hv] at hsame
      constructor
      · intro x y hx hy
        rw [hsame] at hy
        injection hx with hx1
        injection hy with hy1
        omega
      · rw [hsame]
        exact ih (applyOp st u s t op) v hsame (chain_le_of_le hvt hc')
    | inr hnow =>
      constructor
      · intro x y hx hy
        rw [hnow] at hy
        injection hx with hx1
        injection hy with hy1
        omega
      · rw [hnow]
        exact ih (applyOp st u s t op) t hnow hc'

/-- C8: every successful mutation — rename, document upload, chat turn —
overwrites the session's stored `updated_at` with the operation's (fresh)
clock value, and along any run of timed operations whose clock is
non-decreasing the observed `updated_at` values are monotonically
non-decreasing. -/
theorem C8_updated_at_monotone (u s : String) :
    (∀ (st : ServerState) (now : Nat) (name : Option String) (m : SessionMetadata),
        load_session_metadata st u s = .ok (some m) →
        obsUpdated ((update_session st u s name now).1) u s = some now) ∧
    (∀ (st : ServerState) (now : Nat) (files : List UploadFile) (m : SessionMetadata),
        u ≠ "" → s ≠ "" → files ≠ [] →
        load_session_metadata st u s = .ok (some m) →
        pyStrip (processFiles u s now files).2 ≠ "" →
        obsUpdated ((upload_documents st u s files now).1) u s = some now) ∧
    (∀ (st : ServerState) (now : Nat) (q : String) (f : VStore → String → String)
        (m : SessionMetadata) (chain : VStore),
        u ≠ "" → s ≠ "" → q ≠ "" →
        load_session_metadata st u s = .ok (some m) →
        (get_conversation_chain st u s).2 = some chain →
        obsUpdated ((chat st u s q f now).1) u s = some now) ∧
    (∀ (st : ServerState) (t0 : Nat) (ops : List (Nat × SessionOp)),
        obsUpdated st u s = some t0 →
        List.Chain' (· ≤ ·) (t0 :: ops.map Prod.fst) →
        List.Chain' (fun a b : Option Nat => ∀ x y, a = some x → b = some y → x ≤ y)
          (some t0 :: updatedTrace st u s ops)) := by
  refine ⟨?_, ?_, ?_, ?_⟩
  · intro st now name m hm
    simp [update_session, hm, obs_save]
  · intro st now files m hu hs' hfiles hm hne
    have h1 : ¬(u = "" ∨ s = "") := by simp [hu, hs']
    simp only [upload_documents, if_neg h1, if_neg hfiles, hm, if_pos hne]
    rw [obs_save]
  · intro st now q f m chain hu hs' hq hm hc
    have h1 : ¬(u = "" ∨ s = "") := by simp [hu, hs']
    rcases hgcc : get_conversation_chain st u s with ⟨st1, oc⟩
    have hoc : oc = some chain := by rw [hgcc] at hc; exact hc
    subst hoc
    have hfiles : st1.sessionFiles = st.sessionFiles := by
      have hx := sessionFiles_gcc st u s
      rw [hgcc] at hx
      exact hx
    have hst1 : load_session_metadata st1 u s = .ok (some m) := by
      rw [load_congr hfiles u s, hm]
    simp only [chat, if_neg h1, if_neg hq, hgcc, hst1]
    rw [obs_save]
  · intro st t0 ops h0 hc
    exact updatedTrace_chain u s ops st t0 h0 hc

/-- C8 (witness): create at clock 0, then rename at 1, upload at 2 and chat
at 3; the observed `updated_at` trace is monotone. -/
theorem C8_witness :
    obsUpdated stCreated "u" "s" = some 0 ∧
    List.Chain' (· ≤ ·) (0 :: opsW8.map Prod.fst) ∧
    List.Chain' (fun a b : Option Nat => ∀ x y, a = some x → b = some y → x ≤ y)
      (some 0 :: updatedTrace stCreated "u" "s" opsW8) :=
  ⟨rfl, by simp [opsW8, List.chain'_cons, List.chain'_singleton],
   (C8_updated_at_monotone "u" "s").2.2.2 stCreated 0 opsW8 rfl
     (by simp [opsW8, List.chain'_cons, List.chain'_singleton])⟩

/-! ## C10: `message_count` matches the transcript length -/

/-- Every operation preserves "the stored `message_count` equals the length
of the stored transcript (an absent `chat_history` counting as empty)". -/
theorem count_applyOp (st : ServerState) (u s : String) (t : Nat) (op : SessionOp)
    (hinv : ∀ m, load_session_metadata st u s = .ok (some m) →
      m.message_count = some (m.chat_history.getD []).length) :
    ∀ m, load_session_metadata (applyOp st u s t op) u s = .ok (some m) →
      m.message_count = some (m.chat_history.getD []).length := by
  intro m hm
  cases op with
  | rename name =>
    cases hl : load_session_metadata st u s with
    | error e =>
      rw [show applyOp st u s t (.rename name) = st by
        simp [applyOp, update_session, hl]] at hm
      exact hinv m hm
    | ok om =>
      cases om with
      | none =>
        rw [show applyOp st u s t (.rename name) = st by
          simp [applyOp, update_session, hl]] at hm
        exact hinv m hm
      | some m0 =>
        cases name with
        | none =>
          rw [show applyOp st u s t (.rename none) =
              save_session_metadata st u s { m0 with updated_at := t } by
            simp [applyOp, update_session, hl], load_save_self] at hm
          simp only [Except.ok.injEq, Option.some.injEq] at hm
          subst hm
          exact hinv m0 hl
        | some n =>
          rw [show applyOp st u s t (.rename (some n)) =
              save_session_metadata st u s
                { m0 with session_name := n, updated_at := t } by
            simp [applyOp, update_session, hl], load_save_self] at hm
          simp only [Except.ok.injEq, Option.some.injEq] at hm
          subst hm
          exact hinv m0 hl
  | upload files =>
    by_cases h1 : u = "" ∨ s = ""
    · rw [show applyOp st u s t (.upload files) = st by
        simp [applyOp, upload_documents, h1]] at hm
      exact hinv m hm
    · by_cases h2 : files = []
      · rw [show applyOp st u s t (.upload files) = st by
          simp [applyOp, upload_documents, h1, h2]] at hm
        exact hinv m hm
      · cases hl : load_session_metadata st u s with
        | error e =>
          rw [show applyOp st u s t (.upload files) = st by
            simp [applyOp, upload_documents, h1, h2, hl]] at hm
          exact hinv m hm
        | ok om =>
          cases om with
          | none =>
            rw [show applyOp st u s t (.upload files) = st by
              simp [applyOp, upload_documents, h1, h2, hl]] at hm
            exact hinv m hm
          | some m0 =>
            by_cases h3 : pyStrip (processFiles u s t files).2 ≠ ""
            · rw [show applyOp st u s t (.upload files) =
                  save_session_metadata (update_vectorstore st u s
                      (processFiles u s t files).2) u s
                    { m0 with
                        documents := m0.documents ++ (processFiles u s t files).1
                        updated_at := t } by
                simp [applyOp, upload_documents, if_neg h1, if_neg h2, hl, if_pos h3],
                load_save_self] at hm
              simp only [Except.ok.injEq, Option.some.injEq] at hm
              subst hm
              exact hinv m0 hl
            · rw [show applyOp st u s t (.upload files) = st by
                simp [applyOp, upload_documents, h1, h2, hl, h3]] at hm
              exact hinv m hm
  | chatTurn q f =>
    by_cases h1 : u = "" ∨ s = ""
    · rw [show applyOp st u s t (.chatTurn q f) = st by
        simp [applyOp, chat, h1]] at hm
      exact hinv m hm
    · by_cases h2 : q = ""
      · rw [show applyOp st u s t (.chatTurn q f) = st by
          simp [applyOp, chat, h1, h2]] at hm
        exact hinv m hm
      · rcases hgcc : get_conversation_chain st u s with ⟨st1, oc⟩
        have hfiles : st1.sessionFiles = st.sessionFiles := by
          have hx := sessionFiles_gcc st u s
          rw [hgcc] at hx
          exact hx
        have hload1 : load_session_metadata st1 u s = load_session_metadata st u s :=
          load_congr hfiles u s
        cases oc with
        | none =>
          rw [show applyOp st u s t (.chatTurn q f) = st1 by
            simp [applyOp, chat, h1, h2, hgcc]] at hm
          exact hinv m (by rw [← hload1]; exact hm)
        | some chain =>
          cases hl : load_session_metadata st1 u s with
          | error e =>
            rw [show applyOp st u s t (.chatTurn q f) = st1 by
              simp [applyOp, chat, h1, h2, hgcc, hl]] at hm
            exact hinv m (by rw [← hload1]; exact hm)
          | ok om =>
            cases om with
            | none =>
              rw [show applyOp st u s t (.chatTurn q f) = st1 by
                simp [applyOp, chat, h1, h2, hgcc, hl]] at hm
              exact hinv m (by rw [← hload1]; exact hm)
            | some m0 =>
              rw [show applyOp st u s t (.chatTurn q f) =
                  save_session_metadata st1 u s
                    { m0 with
                        message_count := some (m0.message_count.getD 0 + 1)
                        updated_at := t
                        chat_history := some (m0.chat_history.getD [] ++
                          [⟨q, f chain q, t⟩]) } by
                simp [applyOp, chat, if_neg h1, if_neg h2, hgcc, hl],
                load_save_self] at hm
              simp only [Except.ok.injEq, Option.some.injEq] at hm
              subst hm
              have h0 := hinv m0 (by rw [← hload1]; exact hl)
              simp [h0, List.length_append]

theorem count_runOps (u s : String) (ops : List (Nat × SessionOp)) :
    ∀ st : ServerState,
      (∀ m, load_session_metadata st u s = .ok (some m) →
        m.message_count = some (m.chat_history.getD []).length) →
      ∀ m, load_session_metadata (runOps st u s ops) u s = .ok (some m) →
        m.message_count = some (m.chat_history.getD []).length := by
  induction ops with
  | nil =>
    intro st h
    exact h
  | cons p rest ih =>
    obtain ⟨t, op⟩ := p
    intro st h
    exact ih (applyOp st u s t op) (count_applyOp st u s t op h)

/-- C10: for a session created through `create_session` and then mutated by
any sequence of rename, upload and chat operations, whenever the stored
record loads, its `message_count` equals the length of its stored chat
transcript (an absent `chat_history` field counting as an empty
transcript). -/
theorem C10_message_count_invariant (start : ServerState) (u name sid : String)
    (t0 : Nat) (hu : u ≠ "") (ops : List (Nat × SessionOp)) (m : SessionMetadata)
    (hm : load_session_metadata
        (runOps (create_session start u name sid t0).1 u sid ops) u sid =
      .ok (some m)) :
    m.message_count = some (m.chat_history.getD []).length := by
  apply count_runOps u sid ops (create_session start u name sid t0).1 _ m hm
  intro m' hm'
  rw [show (create_session start u name sid t0).1 =
      save_session_metadata start u sid
        { session_id := sid, user_id := u, session_name := name, created_at := t0
          updated_at := t0, message_count := some 0, documents := []
          chat_history := none } by
    simp [create_session, hu], load_save_self] at hm'
  simp only [Except.ok.injEq, Option.some.injEq] at hm'
  subst hm'
  rfl

/-- C10 (witness): create, upload, chat; the stored count is 1 and the
transcript has one entry. -/
theorem C10_witness :
    load_session_metadata stW10 "u" "s" = .ok (some mW10) ∧
    mW10.message_count = some (mW10.chat_history.getD []).length :=
  ⟨rfl, C10_message_count_invariant st0 "u" "N" "s" 0 (by decide) opsW10 mW10 rfl⟩

end NotesApp
